import Mathlib

/-!
Verification of the `HistoryTable` transaction-history view component.

The component is embedded shallowly:
* JavaScript strings are `List Char` (`Str`);
* JavaScript numbers holding integral values (timestamps, page counters,
  millisecond clocks) are `ℤ` or `ℕ`; the transaction `amount` is `ℚ`;
* the React state of the component is the record `ViewState`, and the
  handlers (`fetchTransactions`, the pagination button clicks, the CSV
  download) are pure functions on it;
* a fetch's outside world (HTTP status, parsed JSON body, network error)
  is the inductive `FetchResult`.
-/

/-- JavaScript strings, modelled as lists of characters. -/
abbrev Str := List Char

/-- The character for the decimal digit `n % 10` (as produced when
JavaScript stringifies a nonnegative integer digit by digit). -/
def digitChar (n : ℕ) : Char := Char.ofNat (48 + n % 10)

/-- Fuel-driven decimal rendering of a natural number: the digits of `n`,
most significant first.  `fuel` bounds the recursion depth; `natToStr`
supplies enough fuel for every input. -/
def natToStrAux : ℕ → ℕ → Str
  | 0, _ => []
  | fuel + 1, n =>
    if n < 10 then [digitChar n] else natToStrAux fuel (n / 10) ++ [digitChar n]

/-- Decimal rendering of a natural number, as JavaScript template-literal
interpolation `${n}` renders a nonnegative integer. -/
def natToStr (n : ℕ) : Str := natToStrAux (n + 1) n

/-- Decimal rendering of an integer (sign followed by digits). -/
def intToStr (z : ℤ) : Str :=
  if z < 0 then '-' :: natToStr (-z).toNat else natToStr z.toNat

/-- `truncateAddress` from `HistoryTable.tsx`: empty or short strings are
rejected, otherwise `address.slice(0, 6) + "..." + address.slice(-4)`. -/
def truncateAddress (address : Str) : Str :=
  if address = [] ∨ address.length < 10 then "Invalid Address".toList
  else address.take 6 ++ "...".toList ++ address.drop (address.length - 4)

/-- `simplifyMethodName` from `HistoryTable.tsx`: `method.match(/^([^(]+)/)`
captures the maximal nonempty leading run of characters other than `'('`;
if the regular expression does not match (empty input, or input starting
with `'('`), the method string is returned unchanged. -/
def simplifyMethodName (method : Str) : Str :=
  let m := method.takeWhile (· != '(')
  if m = [] then method else m

/-- `getRelativeTime` from `HistoryTable.tsx`.  `now` is the current clock
in milliseconds (`Date.now()`), `timestamp` the transaction time in unix
seconds.  All divisions happen on nonnegative values, so `Math.floor`
composed with JavaScript division is truncating division. -/
def getRelativeTime (now timestamp : ℤ) : Str :=
  if now - timestamp * 1000 < 0 then "Just now".toList
  else
    let seconds := (now - timestamp * 1000).toNat / 1000
    if seconds < 60 then natToStr seconds ++ " secs ago".toList
    else
      let minutes := seconds / 60
      if minutes < 60 then natToStr minutes ++ " mins ago".toList
      else
        let hours := minutes / 60
        if hours < 24 then natToStr hours ++ " hrs ago".toList
        else natToStr (hours / 24) ++ " days ago".toList

/-- A transaction record as received from `/api/transactions`.  `from` and
`to` are required by the TypeScript type (`fromAddr`/`toAddr` here, since
`from` is reserved); `hash`, `block`, `fee`, `method` are optional. -/
structure Transaction where
  fromAddr : Str
  toAddr : Str
  amount : ℚ
  timestamp : ℤ
  hash : Option Str
  block : Option Str
  fee : Option Str
  method : Option Str
deriving DecidableEq

/-- The component's React state: transaction list, pagination counters and
the loading flag (the `isMobile` flag is purely presentational and
omitted). -/
structure ViewState where
  transactions : List Transaction
  currentPage : ℤ
  totalPages : ℤ
  isLoading : Bool
deriving DecidableEq

/-- The state installed by the `useState` initializers. -/
def initialState : ViewState :=
  { transactions := [], currentPage := 1, totalPages := 1, isLoading := false }

/-- A parsed JSON response body: the `transactions` and `message` fields,
each possibly absent. -/
structure JsonData where
  transactions : Option (List Transaction)
  message : Option Str
deriving DecidableEq

/-- The outside world of one fetch: an HTTP response carrying its `ok`
flag and its parsed body (`none` when `response.json()` throws), or a
network error that makes `fetch` itself reject. -/
inductive FetchResult where
  | response (ok : Bool) (body : Option JsonData)
  | networkError
deriving DecidableEq

/-- A `toast` notification call. -/
structure Toast where
  title : Str
  description : Str
  variant : Str
deriving DecidableEq

def errorTitle : Str := "Error fetching transactions".toList

def unexpectedFormatMsg : Str := "Unexpected response format.".toList

def failedFetchMsg : Str := "Failed to fetch transactions.".toList

def destructiveVariant : Str := "destructive".toList

/-- JavaScript `a || b` on an optional string `a`: the fallback is used
when the field is absent or the string is empty (falsy). -/
def jsOr (o : Option Str) (fallback : Str) : Str :=
  match o with
  | some m => if m = [] then fallback else m
  | none => fallback

/-- `setIsLoading(true)` at the top of `fetchTransactions`. -/
def startFetch (s : ViewState) : ViewState := { s with isLoading := true }

/-- The rest of `fetchTransactions`, acting on the state once the request
has settled: on `response.ok && data.transactions` install the new list
and recompute `totalPages = Math.ceil(length / 50)`; otherwise toast
`data.message || "Unexpected response format."`; when parsing or the
network fails, toast `"Failed to fetch transactions."`.  The `finally`
block clears `isLoading` on every path. -/
def fetchComplete (s : ViewState) (r : FetchResult) : ViewState × Option Toast :=
  match r with
  | .response true (some data) =>
    match data.transactions with
    | some txs =>
      ({ s with transactions := txs,
                totalPages := (((txs.length + 49) / 50 : ℕ) : ℤ),
                isLoading := false }, none)
    | none =>
      ({ s with isLoading := false },
       some ⟨errorTitle, jsOr data.message unexpectedFormatMsg, destructiveVariant⟩)
  | .response false (some data) =>
      ({ s with isLoading := false },
       some ⟨errorTitle, jsOr data.message unexpectedFormatMsg, destructiveVariant⟩)
  | .response _ none =>
      ({ s with isLoading := false },
       some ⟨errorTitle, failedFetchMsg, destructiveVariant⟩)
  | .networkError =>
      ({ s with isLoading := false },
       some ⟨errorTitle, failedFetchMsg, destructiveVariant⟩)

/-- Whether a fetch result takes the success branch of
`fetchTransactions` (`response.ok && data.transactions` is truthy). -/
def isSuccess : FetchResult → Bool
  | .response true (some data) => data.transactions.isSome
  | _ => false

/-- The `message` field of the response body, when the body parsed. -/
def serverMessage : FetchResult → Option Str
  | .response _ (some data) => data.message
  | _ => none

/-- The Previous button: disabled at `currentPage === 1`, otherwise
`setCurrentPage(prev => Math.max(prev - 1, 1))`. -/
def clickPrevious (s : ViewState) : ViewState :=
  if s.currentPage = 1 then s
  else { s with currentPage := max (s.currentPage - 1) 1 }

/-- The Next button: disabled at `currentPage === totalPages`, otherwise
`setCurrentPage(prev => Math.min(prev + 1, totalPages))`. -/
def clickNext (s : ViewState) : ViewState :=
  if s.currentPage = s.totalPages then s
  else { s with currentPage := min (s.currentPage + 1) s.totalPages }

/-- The pagination invariant `1 ≤ currentPage ≤ totalPages`. -/
def pageInvariant (s : ViewState) : Prop :=
  1 ≤ s.currentPage ∧ s.currentPage ≤ s.totalPages

/-- Rendering of a possibly-absent string field under JavaScript
`Array.prototype.join`: `undefined` renders as the empty string. -/
def optField (o : Option Str) : Str := o.getD []

/-- Two-digit numeric field (`'2-digit'` formatting; all uses are < 100,
where ten and above already print two digits). -/
def pad2 (n : ℕ) : Str := if n < 10 then ['0', digitChar n] else natToStr n

/-- Four-digit zero-padded number, as `toISOString` prints years 0–9999. -/
def pad4 (n : ℕ) : Str :=
  List.replicate (4 - (natToStr n).length) '0' ++ natToStr n

/-- The last six decimal digits of `n`, most significant first. -/
def sixDigits (n : ℕ) : Str :=
  [digitChar (n / 100000), digitChar (n / 10000), digitChar (n / 1000),
   digitChar (n / 100), digitChar (n / 10), digitChar n]

/-- `toFixed(6)` on a nonnegative rational: ECMAScript picks the integer
closest to `x·10⁶` (ties to the larger integer, i.e. half-up) and prints
the integer part, a point, and six fraction digits. -/
def toFixed6Abs (q : ℚ) : Str :=
  let n := (⌊q * 1000000 + 1 / 2⌋).toNat
  natToStr (n / 1000000) ++ '.' :: sixDigits (n % 1000000)

/-- `Number.prototype.toFixed(6)` over the rational model of JavaScript
numbers: a negative value prints as the sign followed by `toFixed(6)` of
its negation. -/
def toFixed6 (q : ℚ) : Str :=
  if q < 0 then '-' :: toFixed6Abs (-q) else toFixed6Abs q

/-- Gregorian date (year, month, day) of a day count relative to
1970-01-01 — the standard era-based civil-calendar conversion underlying
JavaScript `Date`. -/
def civilFromDays (z0 : ℤ) : ℤ × ℕ × ℕ :=
  let z := z0 + 719468
  let era : ℤ := Int.fdiv z 146097
  let doe : ℕ := (z - era * 146097).toNat
  let yoe : ℕ := (doe - doe / 1460 + doe / 36524 - doe / 146096) / 365
  let y : ℤ := (yoe : ℤ) + era * 400
  let doy : ℕ := doe - (365 * yoe + yoe / 4 - yoe / 100)
  let mp : ℕ := (5 * doy + 2) / 153
  let d : ℕ := doy - (153 * mp + 2) / 5 + 1
  let m : ℕ := if mp < 10 then mp + 3 else mp - 9
  (if m ≤ 2 then y + 1 else y, m, d)

/-- `formatTimestamp` from `HistoryTable.tsx`: `timestamp` (unix seconds)
rendered in the fixed `Asia/Bangkok` zone (UTC+7, no DST) with the en-GB
`DD/MM/YYYY HH:MM:SS` pattern — `toLocaleString`'s one comma is deleted
by the `.replace(',', '')`. -/
def formatTimestamp (timestamp : ℤ) : Str :=
  let t := timestamp + 7 * 3600
  let days := Int.fdiv t 86400
  let sod := (t - days * 86400).toNat
  let ymd := civilFromDays days
  pad2 ymd.2.2 ++ ['/'] ++ pad2 ymd.2.1 ++ ['/'] ++ intToStr ymd.1 ++ [' '] ++
    pad2 (sod / 3600) ++ [':'] ++ pad2 (sod % 3600 / 60) ++ [':'] ++
    pad2 (sod % 60)

/-- `new Date(timestamp * 1000).toISOString()` for an integral unix-second
timestamp: UTC `YYYY-MM-DDTHH:MM:SS.000Z` (four-digit years; the
milliseconds are always `000` here since the input is whole seconds). -/
def isoString (timestamp : ℤ) : Str :=
  let days := Int.fdiv timestamp 86400
  let sod := (timestamp - days * 86400).toNat
  let ymd := civilFromDays days
  pad4 ymd.1.toNat ++ ['-'] ++ pad2 ymd.2.1 ++ ['-'] ++ pad2 ymd.2.2 ++ ['T'] ++
    pad2 (sod / 3600) ++ [':'] ++ pad2 (sod % 3600 / 60) ++ [':'] ++
    pad2 (sod % 60) ++ ".000Z".toList

/-- The header cells of `handleDownload`. -/
def csvHeaders : List Str :=
  ["Transaction Hash".toList, "Method".toList, "Block".toList, "Age".toList,
   "From".toList, "To".toList, "Amount".toList, "Txn Fee".toList]

/-- `headers.join(',')`. -/
def csvHeaderLine : Str := List.intercalate [','] csvHeaders

/-- The cells of one data row in the first `handleDownload`, whose Age
cell is `new Date(tx.timestamp * 1000).toISOString()`; absent optional
fields render as empty cells, as `join` renders `undefined`. -/
def csvFields (tx : Transaction) : List Str :=
  [optField tx.hash, optField tx.method, optField tx.block,
   isoString tx.timestamp, tx.fromAddr, tx.toAddr,
   toFixed6 tx.amount, optField tx.fee]

/-- One data row of the first `handleDownload`: the cells joined by `,`. -/
def csvRow (tx : Transaction) : Str := List.intercalate [','] (csvFields tx)

/-- The cells of one data row in the second `handleDownload`, whose Age
cell is `formatTimestamp(tx.timestamp)`. -/
def csvFieldsLocale (tx : Transaction) : List Str :=
  [optField tx.hash, optField tx.method, optField tx.block,
   formatTimestamp tx.timestamp, tx.fromAddr, tx.toAddr,
   toFixed6 tx.amount, optField tx.fee]

/-- One data row of the second `handleDownload`. -/
def csvRowLocale (tx : Transaction) : Str :=
  List.intercalate [','] (csvFieldsLocale tx)

/-- `csvContent` of the first `handleDownload`: the header line and one
line per transaction, joined by newlines. -/
def csvContent (txs : List Transaction) : Str :=
  List.intercalate ['\n'] (csvHeaderLine :: txs.map csvRow)

/-- `csvContent` of the second `handleDownload`. -/
def csvContentLocale (txs : List Transaction) : Str :=
  List.intercalate ['\n'] (csvHeaderLine :: txs.map csvRowLocale)

/-- The string fields a transaction contributes verbatim to its CSV row
all avoid the character `c`. -/
def txAvoids (c : Char) (tx : Transaction) : Prop :=
  c ∉ tx.fromAddr ∧ c ∉ tx.toAddr ∧ c ∉ optField tx.hash ∧
  c ∉ optField tx.method ∧ c ∉ optField tx.block ∧ c ∉ optField tx.fee

instance (c : Char) (tx : Transaction) : Decidable (txAvoids c tx) := by
  unfold txAvoids
  infer_instance

/-- The transaction of the spec's CSV example:
`{hash:"0xabc", amount:1.5, fee:"0.001", timestamp:1700000000}`. -/
def sampleTx : Transaction :=
  ⟨[], [], 3 / 2, 1700000000, some "0xabc".toList, none, some "0.001".toList, none⟩

/-- A transaction with every optional field absent. -/
def bareTx : Transaction :=
  ⟨"0xaaaaaaaaaa".toList, "0xbbbbbbbbbb".toList, 1, 1700000000,
   none, none, none, none⟩

/-- C6: `truncateAddress` returns "Invalid Address" exactly on empty or
short (< 10 characters) input; on input of length ≥ 10 it returns the
first 6 characters, "...", and the last 4 characters, a string of length
exactly 13. -/
theorem truncateAddress_spec (a : Str) :
    (a = [] ∨ a.length < 10 → truncateAddress a = "Invalid Address".toList) ∧
    (10 ≤ a.length →
      truncateAddress a = a.take 6 ++ "...".toList ++ a.drop (a.length - 4) ∧
      (truncateAddress a).length = 13) := by
  constructor
  · intro h
    simp only [truncateAddress, if_pos h]
  · intro h
    have hne : ¬(a = [] ∨ a.length < 10) := by
      rintro (rfl | hlt)
      · simp at h
      · omega
    refine ⟨by simp only [truncateAddress, if_neg hne], ?_⟩
    simp only [truncateAddress, if_neg hne, List.length_append, List.length_take,
      List.length_drop]
    have : "...".toList.length = 3 := by decide
    omega

/-- Witness for C6 at concrete inputs: a 12-character address is truncated
to a 13-character display form, and a short address is rejected. -/
theorem truncateAddress_spec_witness :
    (truncateAddress ("0x1234567890".toList) =
        ("0x1234567890".toList).take 6 ++ "...".toList ++
          ("0x1234567890".toList).drop (("0x1234567890".toList).length - 4) ∧
      (truncateAddress ("0x1234567890".toList)).length = 13) ∧
    truncateAddress ("0x12".toList) = "Invalid Address".toList :=
  ⟨(truncateAddress_spec ("0x1234567890".toList)).2 (by decide),
   (truncateAddress_spec ("0x12".toList)).1 (by decide)⟩

/-- C7 counterexample: on the input "(transfer)" — which begins with `'('`
— the code returns the input unchanged, not the (empty) longest run of
characters preceding the first `'('` that the claim demands. -/
theorem simplifyMethodName_counterexample :
    simplifyMethodName ("(transfer)".toList) = "(transfer)".toList ∧
    ("(transfer)".toList).takeWhile (· != '(') = ([] : Str) ∧
    simplifyMethodName ("(transfer)".toList) ≠
      ("(transfer)".toList).takeWhile (· != '(') := by
  refine ⟨by decide, by decide, by decide⟩

/-- C7 amended: when the input does not start with `'('`,
`simplifyMethodName` returns the longest leading run of characters other
than `'('` (in particular the whole input when no `'('` occurs); when the
input is empty or starts with `'('`, it returns the input unchanged. -/
theorem simplifyMethodName_spec (m : Str) :
    (m.head? ≠ some '(' → simplifyMethodName m = m.takeWhile (· != '(')) ∧
    ('(' ∉ m → simplifyMethodName m = m) ∧
    (m.head? = some '(' → simplifyMethodName m = m) := by
  refine ⟨?_, ?_, ?_⟩
  · intro h
    cases m with
    | nil => rfl
    | cons c t =>
      have hc : (c != '(') = true := by
        simp only [List.head?] at h
        simpa using fun hEq => h (by rw [hEq])
      simp only [simplifyMethodName, List.takeWhile_cons, hc, if_true]
      simp
  · intro h
    have ht : m.takeWhile (· != '(') = m := by
      rw [List.takeWhile_eq_self_iff]
      intro x hx
      rcases eq_or_ne x '(' with rfl | hne
      · exact absurd hx h
      · simpa using hne
    simp only [simplifyMethodName, ht]
    split <;> simp_all
  · intro h
    cases m with
    | nil => rfl
    | cons c t =>
      have hc : c = '(' := by simpa [List.head?] using h
      subst hc
      simp [simplifyMethodName, List.takeWhile_cons]

/-- Witness for C7 at concrete inputs: "transfer(address,uint256)" is cut
at the parameter list, and "transfer" (no parenthesis) is unchanged. -/
theorem simplifyMethodName_spec_witness :
    simplifyMethodName ("transfer(address,uint256)".toList) =
      ("transfer(address,uint256)".toList).takeWhile (· != '(') ∧
    simplifyMethodName ("transfer".toList) = "transfer".toList :=
  ⟨(simplifyMethodName_spec ("transfer(address,uint256)".toList)).1 (by decide),
   (simplifyMethodName_spec ("transfer".toList)).2.1 (by decide)⟩

/-- C5: `getRelativeTime` returns "Just now" on every strictly future
timestamp; an elapsed time of 30 s renders as "30 secs ago", 3600 s as
"1 hrs ago", 90000 s as "1 days ago"; and in general a nonnegative
elapsed time of `e` milliseconds renders as exactly one unit — the
largest of seconds, minutes, hours, days whose bucket it reaches. -/
theorem getRelativeTime_spec (now ts : ℤ) :
    (now < ts * 1000 → getRelativeTime now ts = "Just now".toList) ∧
    (now - ts * 1000 = 30000 → getRelativeTime now ts = "30 secs ago".toList) ∧
    (now - ts * 1000 = 3600000 → getRelativeTime now ts = "1 hrs ago".toList) ∧
    (now - ts * 1000 = 90000000 → getRelativeTime now ts = "1 days ago".toList) ∧
    (∀ e : ℕ, now - ts * 1000 = (e : ℤ) →
      (e / 1000 < 60 →
        getRelativeTime now ts = natToStr (e / 1000) ++ " secs ago".toList) ∧
      (60 ≤ e / 1000 → e / 60000 < 60 →
        getRelativeTime now ts = natToStr (e / 60000) ++ " mins ago".toList) ∧
      (60 ≤ e / 60000 → e / 3600000 < 24 →
        getRelativeTime now ts = natToStr (e / 3600000) ++ " hrs ago".toList) ∧
      (24 ≤ e / 3600000 →
        getRelativeTime now ts = natToStr (e / 86400000) ++ " days ago".toList)) := by
  refine ⟨?_, ?_, ?_, ?_, ?_⟩
  · intro h
    simp only [getRelativeTime]
    rw [if_pos (show now - ts * 1000 < 0 by omega)]
  · intro h; simp only [getRelativeTime]; rw [h]; decide
  · intro h; simp only [getRelativeTime]; rw [h]; decide
  · intro h; simp only [getRelativeTime]; rw [h]; decide
  · intro e he
    have hnn : ¬ now - ts * 1000 < 0 := by omega
    have htn : (now - ts * 1000).toNat = e := by omega
    refine ⟨?_, ?_, ?_, ?_⟩ <;> intro h1
    · simp only [getRelativeTime, if_neg hnn, htn, if_pos h1]
    · intro h2
      simp only [getRelativeTime, if_neg hnn, htn]
      rw [if_neg (by omega), if_pos (by omega)]
      congr 1
      congr 1
      omega
    · intro h2
      simp only [getRelativeTime, if_neg hnn, htn]
      rw [if_neg (by omega), if_neg (by omega), if_pos (by omega)]
      congr 1
      congr 1
      omega
    · simp only [getRelativeTime, if_neg hnn, htn]
      rw [if_neg (by omega), if_neg (by omega), if_neg (by omega)]
      congr 1
      congr 1
      omega

/-- Witness for C5 at concrete clocks: with `now = 1700000000000` ms the
four documented behaviours hold at the corresponding timestamps. -/
theorem getRelativeTime_spec_witness :
    getRelativeTime 1700000000000 1700000001 = "Just now".toList ∧
    getRelativeTime 1700000000000 1699999970 = "30 secs ago".toList ∧
    getRelativeTime 1700000000000 1699996400 = "1 hrs ago".toList ∧
    getRelativeTime 1700000000000 1699910000 = "1 days ago".toList :=
  ⟨(getRelativeTime_spec 1700000000000 1700000001).1 (by decide),
   (getRelativeTime_spec 1700000000000 1699999970).2.1 (by decide),
   (getRelativeTime_spec 1700000000000 1699996400).2.2.1 (by decide),
   (getRelativeTime_spec 1700000000000 1699910000).2.2.2.1 (by decide)⟩

/-- C1 counterexample: a successful fetch of an empty transaction list
sets `totalPages` to `Math.ceil(0 / 50) = 0`, not to the claimed
`max(1, ceil(0 / 50)) = 1` — there is no clamp in the code. -/
theorem totalPages_counterexample :
    (fetchComplete initialState
        (.response true (some ⟨some [], none⟩))).1.totalPages = 0 ∧
    (fetchComplete initialState
        (.response true (some ⟨some [], none⟩))).1.totalPages ≠
      max 1 (((([] : List Transaction).length + 49) / 50 : ℕ) : ℤ) := by
  decide

/-- C1 amended: a successful fetch whose list has length `count` sets
`totalPages = ceil(count / 50)` with no lower clamp; for `count ≥ 1` this
coincides with `max(1, ceil(count / 50))` (so `count = 120` gives 3), but
for `count = 0` the stored value is 0, not 1. -/
theorem totalPages_spec (s : ViewState) (txs : List Transaction) (msg : Option Str) :
    (fetchComplete s (.response true (some ⟨some txs, msg⟩))).1.totalPages =
      (((txs.length + 49) / 50 : ℕ) : ℤ) ∧
    (txs ≠ [] →
      (fetchComplete s (.response true (some ⟨some txs, msg⟩))).1.totalPages =
        max 1 (((txs.length + 49) / 50 : ℕ) : ℤ)) := by
  refine ⟨rfl, fun h => ?_⟩
  have hlen : 1 ≤ txs.length := List.length_pos.mpr h
  have h1 : 1 ≤ ((txs.length + 49) / 50 : ℕ) := by omega
  have hmax : max 1 (((txs.length + 49) / 50 : ℕ) : ℤ) =
      (((txs.length + 49) / 50 : ℕ) : ℤ) := by
    rw [max_eq_right]
    exact_mod_cast h1
  rw [hmax]
  rfl

/-- Witness for C1 (amended) on a one-element transaction list: the
stored `totalPages` is `ceil(1 / 50) = 1 = max(1, ceil(1 / 50))`. -/
theorem totalPages_spec_witness :
    (fetchComplete initialState
        (.response true (some ⟨some [⟨[], [], 1, 0, none, none, none, none⟩],
          none⟩))).1.totalPages =
      ((([⟨[], [], 1, 0, none, none, none, none⟩] :
          List Transaction).length + 49) / 50 : ℕ) ∧
    (fetchComplete initialState
        (.response true (some ⟨some [⟨[], [], 1, 0, none, none, none, none⟩],
          none⟩))).1.totalPages =
      max 1 (((([⟨[], [], 1, 0, none, none, none, none⟩] :
          List Transaction).length + 49) / 50 : ℕ) : ℤ) :=
  ⟨(totalPages_spec initialState [⟨[], [], 1, 0, none, none, none, none⟩] none).1,
   (totalPages_spec initialState [⟨[], [], 1, 0, none, none, none, none⟩] none).2
     (by decide)⟩

/-- C2 counterexample: the invariant `1 ≤ currentPage ≤ totalPages` holds
initially but is broken by the successful fetch of an empty list, which
sets `totalPages := 0` while `currentPage` stays 1. -/
theorem pageInvariant_counterexample :
    pageInvariant initialState ∧
    ¬ pageInvariant
        (fetchComplete initialState (.response true (some ⟨some [], none⟩))).1 := by
  constructor
  · exact ⟨le_refl 1, le_refl 1⟩
  · intro h
    exact absurd (le_trans h.1 h.2) (by decide)

/-- C2 amended: the invariant holds initially and is preserved by the
Previous click, the Next click and every failed fetch; a successful fetch
reestablishes it exactly when the recomputed page count
`ceil(count / 50)` still dominates `currentPage` — which fails for
`count = 0` (and whenever the list shrinks below the current page). -/
theorem pageInvariant_spec :
    pageInvariant initialState ∧
    (∀ s, pageInvariant s → pageInvariant (clickPrevious s)) ∧
    (∀ s, pageInvariant s → pageInvariant (clickNext s)) ∧
    (∀ s r, isSuccess r = false → pageInvariant s →
      pageInvariant (fetchComplete s r).1) ∧
    (∀ s (txs : List Transaction) (msg : Option Str), 1 ≤ s.currentPage →
      s.currentPage ≤ (((txs.length + 49) / 50 : ℕ) : ℤ) →
      pageInvariant
        (fetchComplete s (.response true (some ⟨some txs, msg⟩))).1) := by
  refine ⟨⟨le_refl 1, le_refl 1⟩, ?_, ?_, ?_, ?_⟩
  · intro s hs
    obtain ⟨h1, h2⟩ := hs
    simp only [clickPrevious]
    split
    · exact ⟨h1, h2⟩
    · show 1 ≤ max (s.currentPage - 1) 1 ∧ max (s.currentPage - 1) 1 ≤ s.totalPages
      omega
  · intro s hs
    obtain ⟨h1, h2⟩ := hs
    simp only [clickNext]
    split
    · exact ⟨h1, h2⟩
    · show 1 ≤ min (s.currentPage + 1) s.totalPages ∧
        min (s.currentPage + 1) s.totalPages ≤ s.totalPages
      omega
  · intro s r hr hs
    rcases r with ⟨ok, body⟩ | _
    · rcases body with _ | ⟨txopt, msg⟩
      · cases ok <;> exact hs
      · cases ok <;> rcases txopt with _ | txs
        · exact hs
        · exact hs
        · exact hs
        · simp [isSuccess] at hr
    · exact hs
  · intro s txs msg h1 h2
    exact ⟨h1, h2⟩

/-- Witness for C2 (amended): preservation checked at concrete states —
Previous from page 2 of 3, Next from page 2 of 3, a failed fetch from
page 2 of 3, and a successful 60-element fetch seen from page 2. -/
theorem pageInvariant_spec_witness :
    pageInvariant (clickPrevious ⟨[], 2, 3, false⟩) ∧
    pageInvariant (clickNext ⟨[], 2, 3, false⟩) ∧
    pageInvariant (fetchComplete ⟨[], 2, 3, false⟩ .networkError).1 ∧
    pageInvariant
      (fetchComplete ⟨[], 2, 3, false⟩
        (.response true (some ⟨some (List.replicate 60
          ⟨[], [], 1, 0, none, none, none, none⟩), none⟩))).1 :=
  ⟨pageInvariant_spec.2.1 ⟨[], 2, 3, false⟩ (by constructor <;> decide),
   pageInvariant_spec.2.2.1 ⟨[], 2, 3, false⟩ (by constructor <;> decide),
   pageInvariant_spec.2.2.2.1 ⟨[], 2, 3, false⟩ .networkError rfl
     (by constructor <;> decide),
   pageInvariant_spec.2.2.2.2 ⟨[], 2, 3, false⟩
     (List.replicate 60 ⟨[], [], 1, 0, none, none, none, none⟩) none
     (by decide) (by decide)⟩

/-- Helper: behaviour of the JavaScript `||` fallback on an optional
message string. -/
theorem jsOr_spec (o : Option Str) (fb : Str) :
    (∀ m, o = some m → m ≠ [] → jsOr o fb = m) ∧
    ((o = none ∨ o = some []) → jsOr o fb = fb) := by
  constructor
  · rintro m rfl hne
    simp only [jsOr]
    rw [if_neg hne]
  · rintro (rfl | rfl)
    · rfl
    · rfl

/-- C4: a fetch that fails (non-ok status, missing `transactions` field,
unparsable body, or network error) leaves `transactions`, `currentPage`
and `totalPages` untouched and emits exactly one toast, whose description
is the nonempty server-provided `message` when one is present and one of
the two generic fallbacks otherwise. -/
theorem fetchFailure_spec (s : ViewState) (r : FetchResult)
    (hr : isSuccess r = false) :
    (fetchComplete s r).1.transactions = s.transactions ∧
    (fetchComplete s r).1.currentPage = s.currentPage ∧
    (fetchComplete s r).1.totalPages = s.totalPages ∧
    ∃ t : Toast, (fetchComplete s r).2 = some t ∧
      t.title = errorTitle ∧
      (∀ m, serverMessage r = some m → m ≠ [] → t.description = m) ∧
      ((serverMessage r = none ∨ serverMessage r = some []) →
        t.description = unexpectedFormatMsg ∨ t.description = failedFetchMsg) := by
  rcases r with ⟨ok, body⟩ | _
  · rcases body with _ | ⟨txopt, msg⟩
    · cases ok <;>
        · refine ⟨rfl, rfl, rfl,
            ⟨errorTitle, failedFetchMsg, destructiveVariant⟩, rfl, rfl, ?_, ?_⟩
          · intro m hm
            simp [serverMessage] at hm
          · intro _
            exact Or.inr rfl
    · cases ok
      · refine ⟨rfl, rfl, rfl,
          ⟨errorTitle, jsOr msg unexpectedFormatMsg, destructiveVariant⟩,
          rfl, rfl, ?_, ?_⟩
        · intro m hm hne
          exact (jsOr_spec msg unexpectedFormatMsg).1 m hm hne
        · intro hm
          exact Or.inl ((jsOr_spec msg unexpectedFormatMsg).2 hm)
      · rcases txopt with _ | txs
        · refine ⟨rfl, rfl, rfl,
            ⟨errorTitle, jsOr msg unexpectedFormatMsg, destructiveVariant⟩,
            rfl, rfl, ?_, ?_⟩
          · intro m hm hne
            exact (jsOr_spec msg unexpectedFormatMsg).1 m hm hne
          · intro hm
            exact Or.inl ((jsOr_spec msg unexpectedFormatMsg).2 hm)
        · simp [isSuccess] at hr
  · refine ⟨rfl, rfl, rfl,
      ⟨errorTitle, failedFetchMsg, destructiveVariant⟩, rfl, rfl, ?_, ?_⟩
    · intro m hm
      simp [serverMessage] at hm
    · intro _
      exact Or.inr rfl

/-- Witness for C4: a 500 response with body `{message: "server error"}`,
received while one transaction is loaded, keeps the list and pages intact
and toasts "server error". -/
theorem fetchFailure_spec_witness :
    (fetchComplete
        (⟨[⟨[], [], 1, 0, none, none, none, none⟩], 1, 1, false⟩ : ViewState)
        (.response false (some ⟨none, some "server error".toList⟩))).1.transactions =
      [⟨[], [], 1, 0, none, none, none, none⟩] ∧
    ∃ t : Toast,
      (fetchComplete
          (⟨[⟨[], [], 1, 0, none, none, none, none⟩], 1, 1, false⟩ : ViewState)
          (.response false (some ⟨none, some "server error".toList⟩))).2 = some t ∧
      t.description = "server error".toList := by
  have h := fetchFailure_spec
    (⟨[⟨[], [], 1, 0, none, none, none, none⟩], 1, 1, false⟩ : ViewState)
    (.response false (some ⟨none, some "server error".toList⟩)) rfl
  refine ⟨h.1, ?_⟩
  obtain ⟨t, ht, _, hmsg, _⟩ := h.2.2.2
  exact ⟨t, ht, hmsg "server error".toList rfl (by decide)⟩

/-- C8: `setIsLoading(true)` holds at the start of every fetch cycle, and
the `finally` block leaves `isLoading = false` on the success path and on
every failure path alike. -/
theorem isLoading_spec :
    (∀ s, (startFetch s).isLoading = true) ∧
    (∀ s r, (fetchComplete s r).1.isLoading = false) := by
  refine ⟨fun s => rfl, fun s r => ?_⟩
  rcases r with ⟨ok, body⟩ | _
  · rcases body with _ | ⟨txopt, msg⟩
    · cases ok <;> rfl
    · cases ok
      · rfl
      · rcases txopt with _ | txs <;> rfl
  · rfl

/-- C10: the Previous and Next buttons only ever touch `currentPage`; the
transaction list, `totalPages` and `isLoading` are untouched whether or
not the button is disabled. -/
theorem pagination_frame (s : ViewState) :
    (clickPrevious s).transactions = s.transactions ∧
    (clickPrevious s).totalPages = s.totalPages ∧
    (clickPrevious s).isLoading = s.isLoading ∧
    (clickNext s).transactions = s.transactions ∧
    (clickNext s).totalPages = s.totalPages ∧
    (clickNext s).isLoading = s.isLoading := by
  refine ⟨?_, ?_, ?_, ?_, ?_, ?_⟩ <;>
    simp only [clickPrevious, clickNext] <;> split <;> rfl

/-- Helper: characters of a concatenation come from one of the parts. -/
theorem chars_append {L a b : Str} (ha : ∀ c ∈ a, c ∈ L) (hb : ∀ c ∈ b, c ∈ L) :
    ∀ c ∈ a ++ b, c ∈ L := by
  intro c hc
  rcases List.mem_append.1 hc with h | h
  · exact ha c h
  · exact hb c h

/-- Every `digitChar` is one of the ten digit characters. -/
theorem digitChar_mem_digits (n : ℕ) : digitChar n ∈ "0123456789".toList := by
  have h : n % 10 < 10 := Nat.mod_lt _ (by norm_num)
  unfold digitChar
  revert h
  generalize n % 10 = k
  intro h
  interval_cases k <;> decide

/-- `natToStrAux` emits only digit characters. -/
theorem natToStrAux_digits (fuel : ℕ) :
    ∀ n : ℕ, ∀ c ∈ natToStrAux fuel n, c ∈ "0123456789".toList := by
  induction fuel with
  | zero =>
    intro n c hc
    simp [natToStrAux] at hc
  | succ fuel ih =>
    intro n c hc
    rw [natToStrAux] at hc
    by_cases h : n < 10
    · rw [if_pos h] at hc
      rcases List.mem_singleton.1 hc with rfl
      exact digitChar_mem_digits n
    · rw [if_neg h] at hc
      rcases List.mem_append.1 hc with h1 | h2
      · exact ih _ c h1
      · rcases List.mem_singleton.1 h2 with rfl
        exact digitChar_mem_digits n

/-- `natToStr` emits only digit characters. -/
theorem natToStr_digits (n : ℕ) : ∀ c ∈ natToStr n, c ∈ "0123456789".toList :=
  natToStrAux_digits (n + 1) n

/-- `pad2` emits only digit characters. -/
theorem pad2_digits (n : ℕ) : ∀ c ∈ pad2 n, c ∈ "0123456789".toList := by
  intro c hc
  unfold pad2 at hc
  split at hc
  · rcases List.mem_cons.1 hc with rfl | h2
    · decide
    · rcases List.mem_singleton.1 h2 with rfl
      exact digitChar_mem_digits n
  · exact natToStr_digits n c hc

/-- `pad4` emits only digit characters. -/
theorem pad4_digits (n : ℕ) : ∀ c ∈ pad4 n, c ∈ "0123456789".toList := by
  intro c hc
  unfold pad4 at hc
  rcases List.mem_append.1 hc with h1 | h2
  · rw [List.eq_of_mem_replicate h1]
    decide
  · exact natToStr_digits n c h2

/-- `intToStr` emits only digits and the minus sign. -/
theorem intToStr_chars (z : ℤ) : ∀ c ∈ intToStr z, c ∈ "-0123456789".toList := by
  intro c hc
  unfold intToStr at hc
  have hdig : ∀ x ∈ "0123456789".toList, x ∈ "-0123456789".toList := by decide
  split at hc
  · rcases List.mem_cons.1 hc with rfl | h2
    · decide
    · exact hdig c (natToStr_digits _ c h2)
  · exact hdig c (natToStr_digits _ c hc)

/-- `sixDigits` emits only digit characters. -/
theorem sixDigits_digits (n : ℕ) : ∀ c ∈ sixDigits n, c ∈ "0123456789".toList := by
  intro c hc
  simp only [sixDigits, List.mem_cons, List.not_mem_nil, or_false] at hc
  rcases hc with rfl | rfl | rfl | rfl | rfl | rfl <;> exact digitChar_mem_digits _

/-- `toFixed6` emits only digits, the point and the minus sign. -/
theorem toFixed6_chars (q : ℚ) : ∀ c ∈ toFixed6 q, c ∈ "-.0123456789".toList := by
  have hdig : ∀ x ∈ "0123456789".toList, x ∈ "-.0123456789".toList := by decide
  have habs : ∀ r : ℚ, ∀ c ∈ toFixed6Abs r, c ∈ "-.0123456789".toList := by
    intro r c hc
    simp only [toFixed6Abs] at hc
    rcases List.mem_append.1 hc with h1 | h2
    · exact hdig c (natToStr_digits _ c h1)
    · rcases List.mem_cons.1 h2 with rfl | h3
      · decide
      · exact hdig c (sixDigits_digits _ c h3)
  intro c hc
  unfold toFixed6 at hc
  split at hc
  · rcases List.mem_cons.1 hc with rfl | h
    · decide
    · exact habs _ c h
  · exact habs _ c hc

/-- `formatTimestamp` emits only digits, slashes, spaces, colons and the
minus sign. -/
theorem formatTimestamp_chars (ts : ℤ) :
    ∀ c ∈ formatTimestamp ts, c ∈ "-/ :0123456789".toList := by
  have hp : ∀ n : ℕ, ∀ c ∈ pad2 n, c ∈ "-/ :0123456789".toList := fun n c hc =>
    (by decide : ∀ x ∈ "0123456789".toList, x ∈ "-/ :0123456789".toList) c
      (pad2_digits n c hc)
  have hi : ∀ z : ℤ, ∀ c ∈ intToStr z, c ∈ "-/ :0123456789".toList := fun z c hc =>
    (by decide : ∀ x ∈ "-0123456789".toList, x ∈ "-/ :0123456789".toList) c
      (intToStr_chars z c hc)
  simp only [formatTimestamp]
  exact chars_append (chars_append (chars_append (chars_append (chars_append
    (chars_append (chars_append (chars_append (chars_append (chars_append
      (hp _) (by decide)) (hp _)) (by decide)) (hi _)) (by decide)) (hp _))
    (by decide)) (hp _)) (by decide)) (hp _)

/-- `isoString` emits only digits, dashes, colons, the point, `T` and
`Z`. -/
theorem isoString_chars (ts : ℤ) :
    ∀ c ∈ isoString ts, c ∈ "-.:TZ0123456789".toList := by
  have hp : ∀ n : ℕ, ∀ c ∈ pad2 n, c ∈ "-.:TZ0123456789".toList := fun n c hc =>
    (by decide : ∀ x ∈ "0123456789".toList, x ∈ "-.:TZ0123456789".toList) c
      (pad2_digits n c hc)
  have hp4 : ∀ n : ℕ, ∀ c ∈ pad4 n, c ∈ "-.:TZ0123456789".toList := fun n c hc =>
    (by decide : ∀ x ∈ "0123456789".toList, x ∈ "-.:TZ0123456789".toList) c
      (pad4_digits n c hc)
  simp only [isoString]
  exact chars_append (chars_append (chars_append (chars_append (chars_append
    (chars_append (chars_append (chars_append (chars_append (chars_append
      (chars_append (hp4 _) (by decide)) (hp _)) (by decide)) (hp _))
      (by decide)) (hp _)) (by decide)) (hp _)) (by decide)) (hp _))
    (by decide)

/-- A newline never occurs in a `formatTimestamp` rendering. -/
theorem newline_not_mem_formatTimestamp (ts : ℤ) : '\n' ∉ formatTimestamp ts :=
  fun h => absurd (formatTimestamp_chars ts '\n' h) (by decide)

/-- A newline never occurs in a `toFixed(6)` rendering. -/
theorem newline_not_mem_toFixed6 (q : ℚ) : '\n' ∉ toFixed6 q :=
  fun h => absurd (toFixed6_chars q '\n' h) (by decide)

/-- A comma never occurs in an `isoString` rendering. -/
theorem comma_not_mem_isoString (ts : ℤ) : ',' ∉ isoString ts :=
  fun h => absurd (isoString_chars ts ',' h) (by decide)

/-- A comma never occurs in a `toFixed(6)` rendering. -/
theorem comma_not_mem_toFixed6 (q : ℚ) : ',' ∉ toFixed6 q :=
  fun h => absurd (toFixed6_chars q ',' h) (by decide)

/-- `join` of a one-element array is that element. -/
theorem intercalate_one (sep a : Str) : List.intercalate sep [a] = a := by
  simp [List.intercalate]

/-- Unfolding step for `join`: the first cell, the separator, then the
join of the rest. -/
theorem intercalate_cons_cons (sep a b : Str) (l : List Str) :
    List.intercalate sep (a :: b :: l) =
      a ++ sep ++ List.intercalate sep (b :: l) := by
  simp [List.intercalate, List.intersperse_cons_cons, List.append_assoc]

/-- A character of a single-character join comes from the separator or
from one of the cells. -/
theorem mem_intercalate {c s : Char} {l : List Str}
    (hc : c ∈ List.intercalate [s] l) : c = s ∨ ∃ x ∈ l, c ∈ x := by
  induction l with
  | nil => simp [List.intercalate] at hc
  | cons a t ih =>
    cases t with
    | nil =>
      rw [intercalate_one] at hc
      exact Or.inr ⟨a, List.mem_cons_self a [], hc⟩
    | cons b u =>
      rw [intercalate_cons_cons] at hc
      rcases List.mem_append.1 hc with h1 | h2
      · rcases List.mem_append.1 h1 with ha | hs
        · exact Or.inr ⟨a, List.mem_cons_self a _, ha⟩
        · exact Or.inl (List.mem_singleton.1 hs)
      · rcases ih h2 with hh | ⟨x, hx, hcx⟩
        · exact Or.inl hh
        · exact Or.inr ⟨x, List.mem_cons_of_mem a hx, hcx⟩

/-- A character differing from the separator and absent from every cell
is absent from the join. -/
theorem not_mem_intercalate {c s : Char} {l : List Str} (hcs : c ≠ s)
    (h : ∀ x ∈ l, c ∉ x) : c ∉ List.intercalate [s] l := by
  intro hin
  rcases mem_intercalate hin with rfl | ⟨x, hx, hcx⟩
  · exact hcs rfl
  · exact h x hx hcx

/-- An eight-cell join written out. -/
theorem intercalate_eight (s : Char) (f1 f2 f3 f4 f5 f6 f7 f8 : Str) :
    List.intercalate [s] [f1, f2, f3, f4, f5, f6, f7, f8] =
      f1 ++ [s] ++ f2 ++ [s] ++ f3 ++ [s] ++ f4 ++ [s] ++ f5 ++ [s] ++ f6 ++ [s]
        ++ f7 ++ [s] ++ f8 := by
  rw [intercalate_cons_cons, intercalate_cons_cons, intercalate_cons_cons,
    intercalate_cons_cons, intercalate_cons_cons, intercalate_cons_cons,
    intercalate_cons_cons, intercalate_one]
  simp [List.append_assoc]

/-- A CSV row of the second `handleDownload` contains no newline when the
transaction's own string fields contain none. -/
theorem newline_not_mem_csvRowLocale (tx : Transaction)
    (h : txAvoids '\n' tx) : '\n' ∉ csvRowLocale tx := by
  obtain ⟨h1, h2, h3, h4, h5, h6⟩ := h
  apply not_mem_intercalate (by decide)
  unfold csvFieldsLocale
  exact List.forall_mem_cons.mpr ⟨h3, List.forall_mem_cons.mpr ⟨h4,
    List.forall_mem_cons.mpr ⟨h5,
    List.forall_mem_cons.mpr ⟨newline_not_mem_formatTimestamp _,
    List.forall_mem_cons.mpr ⟨h1, List.forall_mem_cons.mpr ⟨h2,
    List.forall_mem_cons.mpr ⟨newline_not_mem_toFixed6 _,
    List.forall_mem_cons.mpr ⟨h6, List.forall_mem_nil _⟩⟩⟩⟩⟩⟩⟩⟩

/-- `toFixed(6)` always renders with a point followed by exactly six
fraction digits (and no other point after it). -/
theorem toFixed6_decimal_shape (q : ℚ) :
    ∃ a b : Str, toFixed6 q = a ++ '.' :: b ∧ b.length = 6 ∧ '.' ∉ b := by
  have hdot : ∀ n : ℕ, '.' ∉ sixDigits n := fun n hn =>
    absurd (sixDigits_digits n '.' hn) (by decide)
  unfold toFixed6
  split
  · exact ⟨'-' :: natToStr ((⌊(-q) * 1000000 + 1 / 2⌋).toNat / 1000000),
      sixDigits ((⌊(-q) * 1000000 + 1 / 2⌋).toNat % 1000000),
      rfl, rfl, hdot _⟩
  · exact ⟨natToStr ((⌊q * 1000000 + 1 / 2⌋).toNat / 1000000),
      sixDigits ((⌊q * 1000000 + 1 / 2⌋).toNat % 1000000),
      rfl, rfl, hdot _⟩

/-- The rounding step of `toFixed(6)` on the sample amount `1.5`. -/
theorem sampleTx_floor : ⌊(sampleTx.amount * 1000000 + 1 / 2 : ℚ)⌋ = 1500000 := by
  have h1 : (sampleTx.amount * 1000000 + 1 / 2 : ℚ) =
      ((3000001 : ℤ) : ℚ) / ((2 : ℕ) : ℚ) := by
    norm_num [sampleTx]
  rw [h1, Rat.floor_intCast_div_natCast]
  decide

/-- `(1.5).toFixed(6)` is `"1.500000"`. -/
theorem sampleTx_amount_toFixed : toFixed6 sampleTx.amount = "1.500000".toList := by
  have hneg : ¬ (sampleTx.amount < 0) := by norm_num [sampleTx]
  simp only [toFixed6, if_neg hneg, toFixed6Abs, sampleTx_floor]
  decide

/-- The full CSV row of the sample transaction in the second
`handleDownload`. -/
theorem csvRowLocale_sampleTx :
    csvRowLocale sampleTx =
      "0xabc,,,15/11/2023 05:13:20,,,1.500000,0.001".toList := by
  simp only [csvRowLocale, csvFieldsLocale, sampleTx_amount_toFixed]
  decide

/-- C3 (settled on the second `handleDownload`, whose Age cell is the
absolute-timestamp formatter `formatTimestamp`): splitting the exported
file on newlines yields the header row
`Transaction Hash,Method,Block,Age,From,To,Amount,Txn Fee` followed by
exactly one row per transaction; each row joins the eight cells with
commas, with the amount printed by `toFixed(6)` (a point followed by
exactly six digits) and the Age cell printed by `formatTimestamp`; and
for the sample transaction `{hash:"0xabc", amount:1.5, fee:"0.001",
timestamp:1700000000}` the second line starts with `0xabc,` and contains
`1.500000`. -/
theorem csvExport_spec (txs : List Transaction)
    (h : ∀ tx ∈ txs, txAvoids '\n' tx) :
    (csvContentLocale txs).splitOn '\n' = csvHeaderLine :: txs.map csvRowLocale ∧
    csvHeaderLine =
      "Transaction Hash,Method,Block,Age,From,To,Amount,Txn Fee".toList ∧
    (txs.map csvRowLocale).length = txs.length ∧
    (∀ tx ∈ txs, csvRowLocale tx =
      optField tx.hash ++ [','] ++ optField tx.method ++ [','] ++
        optField tx.block ++ [','] ++ formatTimestamp tx.timestamp ++ [','] ++
        tx.fromAddr ++ [','] ++ tx.toAddr ++ [','] ++ toFixed6 tx.amount ++
        [','] ++ optField tx.fee) ∧
    (∀ tx ∈ txs, ∃ a b : Str,
      toFixed6 tx.amount = a ++ '.' :: b ∧ b.length = 6 ∧ '.' ∉ b) ∧
    (csvRowLocale sampleTx).take 6 = "0xabc,".toList ∧
    (∃ u v : Str, csvRowLocale sampleTx = u ++ "1.500000".toList ++ v) ∧
    (csvContentLocale [sampleTx]).splitOn '\n' =
      [csvHeaderLine, csvRowLocale sampleTx] := by
  refine ⟨?_, by decide, by simp, ?_, ?_,
    by rw [csvRowLocale_sampleTx]; decide, ?_, ?_⟩
  · have hx : ∀ l ∈ csvHeaderLine :: txs.map csvRowLocale, '\n' ∉ l := by
      intro l hl
      rcases List.mem_cons.1 hl with rfl | hl2
      · decide
      · obtain ⟨tx, htx, rfl⟩ := List.mem_map.1 hl2
        exact newline_not_mem_csvRowLocale tx (h tx htx)
    unfold csvContentLocale
    exact List.splitOn_intercalate _ '\n' hx (List.cons_ne_nil _ _)
  · intro tx _
    exact intercalate_eight ',' _ _ _ _ _ _ _ _
  · intro tx _
    exact toFixed6_decimal_shape tx.amount
  · exact ⟨"0xabc,,,15/11/2023 05:13:20,,,".toList, ",0.001".toList,
      by rw [csvRowLocale_sampleTx]; decide⟩
  · simp only [csvContentLocale, List.map_cons, List.map_nil, csvRowLocale_sampleTx]
    decide

/-- Witness for C3 on the sample transaction list: its export splits into
the header line and the sample row. -/
theorem csvExport_spec_witness :
    (csvContentLocale [sampleTx]).splitOn '\n' =
      csvHeaderLine :: [sampleTx].map csvRowLocale :=
  (csvExport_spec [sampleTx] (by decide)).1

/-- C9 (first `handleDownload`): when the transaction's own string fields
are comma-free, its row splits on commas into exactly the eight cells,
and each absent optional field (`hash`, `method`, `block`, `fee`)
occupies its cell as the empty string — never the text "undefined". -/
theorem csvRow_optional_fields (tx : Transaction) (h : txAvoids ',' tx) :
    (csvRow tx).splitOn ',' = csvFields tx ∧
    ((csvRow tx).splitOn ',').length = 8 ∧
    (tx.hash = none → ((csvRow tx).splitOn ',')[0]? = some ([] : Str)) ∧
    (tx.method = none → ((csvRow tx).splitOn ',')[1]? = some ([] : Str)) ∧
    (tx.block = none → ((csvRow tx).splitOn ',')[2]? = some ([] : Str)) ∧
    (tx.fee = none → ((csvRow tx).splitOn ',')[7]? = some ([] : Str)) := by
  obtain ⟨h1, h2, h3, h4, h5, h6⟩ := h
  have hfields : ∀ x ∈ csvFields tx, ',' ∉ x := by
    unfold csvFields
    exact List.forall_mem_cons.mpr ⟨h3, List.forall_mem_cons.mpr ⟨h4,
      List.forall_mem_cons.mpr ⟨h5,
      List.forall_mem_cons.mpr ⟨comma_not_mem_isoString _,
      List.forall_mem_cons.mpr ⟨h1, List.forall_mem_cons.mpr ⟨h2,
      List.forall_mem_cons.mpr ⟨comma_not_mem_toFixed6 _,
      List.forall_mem_cons.mpr ⟨h6, List.forall_mem_nil _⟩⟩⟩⟩⟩⟩⟩⟩
  have hmain : (csvRow tx).splitOn ',' = csvFields tx := by
    unfold csvRow
    exact List.splitOn_intercalate _ ',' hfields (by simp [csvFields])
  refine ⟨hmain, by rw [hmain]; rfl, ?_, ?_, ?_, ?_⟩ <;>
    · intro hnone
      rw [hmain]
      unfold csvFields
      rw [hnone]
      rfl

/-- Witness for C9: a transaction with every optional field absent splits
into eight cells with empty hash, method, block and fee cells. -/
theorem csvRow_optional_fields_witness :
    ((csvRow bareTx).splitOn ',').length = 8 ∧
    ((csvRow bareTx).splitOn ',')[0]? = some ([] : Str) ∧
    ((csvRow bareTx).splitOn ',')[1]? = some ([] : Str) ∧
    ((csvRow bareTx).splitOn ',')[2]? = some ([] : Str) ∧
    ((csvRow bareTx).splitOn ',')[7]? = some ([] : Str) :=
  ⟨(csvRow_optional_fields bareTx (by decide)).2.1,
   (csvRow_optional_fields bareTx (by decide)).2.2.1 rfl,
   (csvRow_optional_fields bareTx (by decide)).2.2.2.1 rfl,
   (csvRow_optional_fields bareTx (by decide)).2.2.2.2.1 rfl,
   (csvRow_optional_fields bareTx (by decide)).2.2.2.2.2 rfl⟩
